import Mathlib

/-!
Shallow embedding of the ideatorapi wallet/ledger core (`src/core` of the
repository).  Django model rows become Lean structures and the database
becomes an explicit `State` value threaded through the operations.

Money: every persisted monetary column is `DecimalField(decimal_places=2)`,
so every stored value is an exact multiple of 0.01; we represent money as an
integer number of cents (`ℤ`).  Python `Decimal` arithmetic in the source is
exact (the default context carries 28 significant digits, far above every
magnitude reachable with 12-digit column bounds), so sums and products of
stored values are modelled by exact integer arithmetic on cents; the only
rounding points are the `.quantize(Decimal('0.01'))` calls.  A `quantize`
applied to a value that is already an exact multiple of 0.01 (every sum of
stored column values) is the identity, modelled by `quantizeCents`; a
`quantize` applied to an exact quotient `num/100` of cent values (the
request-time cashback and promo-bonus computations) is modelled by
`roundHalfEvenDiv num 100`.  No `.quantize` call in the source passes a
`rounding=` argument, so all of them use the Python default context
rounding, ROUND_HALF_EVEN.
-/

namespace Ideator

/-- Round `num / den` (for `den > 0`) to the nearest integer with ties
going to the even integer: the Python decimal rounding mode
ROUND_HALF_EVEN, the default context rounding used by every
`.quantize(...)` call in the source. -/
def roundHalfEvenDiv (num den : ℤ) : ℤ :=
  let q : ℤ := num.fdiv den
  let r : ℤ := num - q * den
  if 2 * r < den then q
  else if den < 2 * r then q + 1
  else if q % 2 = 0 then q else q + 1

/-- `.quantize(Decimal('0.01'))` applied to a value that is already an
exact multiple of 0.01 — every sum of persisted 2-decimal column values —
is the identity; in the cents representation it is the identity on `ℤ`. -/
def quantizeCents (n : ℤ) : ℤ := n

/-- Modelled from the spec: the spec's words say monetary rounding is
"round-half-away-from-zero".  This definition follows those words (it is
not part of the code embedding) so it can be compared with
`roundHalfEvenDiv`, which embeds what the code actually does. -/
def roundHalfAwayDivSpec (num den : ℤ) : ℤ :=
  let q : ℤ := num.fdiv den
  let r : ℤ := num - q * den
  if 2 * r < den then q
  else if den < 2 * r then q + 1
  else if num < 0 then q else q + 1

/-- `core/models.py` `Promocode`. -/
structure Promocode where
  id : Nat
  code : String
  percent : Nat
  is_active : Bool
deriving DecidableEq

/-- `core/models.py` `User` (the fields the ledger core touches).
`balance` is in cents. -/
structure User where
  id : Nat
  phone_number : String
  balance : ℤ
  referral_code : Option String
  referred_by : Option Nat
deriving DecidableEq

/-- `core/models.py` `TopUpTransaction`.  `promo_code` is the FK target id;
`activated_at` is a timestamp (modelled as an abstract tick); monetary
fields are in cents. -/
structure TopUpTransaction where
  id : Nat
  user : Nat
  amount : ℤ
  cashback : ℤ
  promo_code : Option Nat
  promo_bonus : ℤ
  is_active : Bool
  activated_at : Option Nat
deriving DecidableEq

/-- `core/models.py` `PromocodeUsage`: an (account, promocode) pair. -/
structure PromocodeUsage where
  user : Nat
  promocode : Nat
deriving DecidableEq

/-- `core/models.py` `Notification` (append-only; `timestamp`/`read` are
irrelevant to the claims and omitted). -/
structure Notification where
  user : Nat
  type : String
  title : String
  message : String
deriving DecidableEq

/-- `core/models.py` `Project` (the fields `start_project` sets). -/
structure Project where
  id : Nat
  owner : Nat
  project_name : String
deriving DecidableEq

/-- The database, plus the auto-increment primary-key counters and the
clock. -/
structure State where
  users : List User
  promocodes : List Promocode
  topups : List TopUpTransaction
  usages : List PromocodeUsage
  notifications : List Notification
  projects : List Project
  next_user_id : Nat
  next_topup_id : Nat
  next_project_id : Nat
  now : Nat
deriving DecidableEq

/-- Python `str.strip()`. -/
def pyTrim (s : String) : String :=
  ⟨((s.data.dropWhile Char.isWhitespace).reverse.dropWhile Char.isWhitespace).reverse⟩

/-- Python `str.lower()` as used by the `__iexact` case-insensitive
lookups. -/
def pyLower (s : String) : String := ⟨s.data.map Char.toLower⟩

/-- `TopUpTransaction.objects.get(id=i)` (primary keys are unique). -/
def findTopup (s : State) (i : Nat) : Option TopUpTransaction :=
  s.topups.find? (fun t => t.id == i)

/-- Fetch a user row by primary key. -/
def findUser (s : State) (i : Nat) : Option User :=
  s.users.find? (fun u => u.id == i)

/-- `tx.save(...)`: write the row with this primary key back. -/
def saveTopup (s : State) (tx : TopUpTransaction) : State :=
  { s with topups := s.topups.map (fun t => if t.id == tx.id then tx else t) }

/-- `user.save(...)`: write the row with this primary key back. -/
def saveUser (s : State) (u : User) : State :=
  { s with users := s.users.map (fun w => if w.id == u.id then u else w) }

/-- `PromocodeUsage.objects.filter(user=..., promocode=...).exists()`. -/
def usageExists (s : State) (u p : Nat) : Bool :=
  s.usages.any (fun q => q.user == u && q.promocode == p)

/-- The success notification text of the approval operation (the Decimal
string rendering of the source is abstracted to `toString` of the cent
value; no claim depends on the exact text). -/
def topup_approved_message (amount cashback bonus : ℤ) : String :=
  "+" ++ toString amount ++ " added, +" ++ toString cashback ++
    " cashback, +" ++ toString bonus ++ " promo. Balance updated."

/-- `core/views.py` `_approve_topup_transaction` (lines 166-188): the
shared approval operation.  Returns `applied` and the new state.  The
adapters always resolve the id before calling, so the `none` arm of the
lookup is unreachable from them and is a no-op; the FK `tx.user` always
resolves under referential integrity, so the `none` arm of `findUser` is
likewise a no-op. -/
def approve_topup_transaction (s : State) (txId : Nat) : Bool × State :=
  match findTopup s txId with
  | none => (false, s)
  | some tx =>
    if tx.is_active then (false, s)
    else
      let has_used : Bool :=
        match tx.promo_code with
        | some p => usageExists s tx.user p
        | none => false
      let promo_bonus : ℤ :=
        match tx.promo_code with
        | some _ => if !has_used then tx.promo_bonus else 0
        | none => 0
      let total : ℤ := quantizeCents (tx.amount + tx.cashback + promo_bonus)
      let s1 : State :=
        match findUser s tx.user with
        | some u => saveUser s { u with balance := quantizeCents (u.balance + total) }
        | none => s
      let s2 : State := saveTopup s1 { tx with is_active := true, activated_at := some s.now }
      let s3 : State :=
        match tx.promo_code with
        | some p => if !has_used then { s2 with usages := s2.usages ++ [⟨tx.user, p⟩] } else s2
        | none => s2
      (true, { s3 with notifications := s3.notifications ++
          [⟨tx.user, "success", "Top-up approved",
            topup_approved_message tx.amount tx.cashback promo_bonus⟩] })

/-- The validation errors `TopUpSerializer.validate` can raise. -/
inductive TopUpError where
  | invalidAmount
  | unknownOrInactivePromo
  | promoAlreadyUsed
deriving DecidableEq

/-- `core/serializers.py` `TopUpSerializer.validate` (lines 126-143).
`amount` is in cents; `promo_code` is the raw input string (absent input is
the empty string, matching `attrs.get('promo_code', '')`).  On success
returns the resolved promo, if any.  `Promocode.objects.get(code__iexact=
..., is_active=True)` assumes at most one row matches (the column is unique
case-sensitively; with two case-variants of the same code the Python `get`
would raise `MultipleObjectsReturned` instead — modelled as first match). -/
def topupValidate (s : State) (userId : Nat) (amount : ℤ) (promo_code : String) :
    Except TopUpError (Option Promocode) :=
  if amount ≤ 0 then .error .invalidAmount
  else
    let code := pyTrim promo_code
    if code ≠ "" then
      match s.promocodes.find? (fun p => pyLower p.code == pyLower code && p.is_active) with
      | none => .error .unknownOrInactivePromo
      | some promo =>
        if usageExists s userId promo.id then .error .promoAlreadyUsed
        else .ok (some promo)
    else .ok none

/-- The JSON body `WalletView.post` answers with. -/
structure TopUpResp where
  transaction_id : Nat
  amount : ℤ
  cashback : ℤ
  promo_bonus : ℤ
  approve_token : String
deriving DecidableEq

/-- The info notification text of `WalletView.post` (text abstracted; no
claim depends on it). -/
def topup_requested_message (amount cashback : ℤ) : String :=
  toString amount ++ " requested; on approval +" ++ toString amount ++
    " and +" ++ toString cashback ++ " cashback will be added."

/-- `hmac.new(secret, f"{topup.id}:{user.id}".encode(), hashlib.sha256)
.hexdigest()`: the keyed hash is abstracted as a parameter `mac` applied to
the secret and the message string — the embedding never depends on the
internals of HMAC-SHA256, only on which message is hashed. -/
def approvalToken (mac : String → String → String) (secret : String)
    (txId userId : Nat) : String :=
  mac secret (toString txId ++ ":" ++ toString userId)

/-- `core/views.py` `WalletView.post` (lines 197-240), composed with
`TopUpSerializer.validate`: create a pending top-up.  `amount` is in cents;
`cashback = (amount * Decimal('0.01')).quantize(Decimal('0.01'))` is
`amount/100` cents rounded half-even, and `promo_bonus =
(amount * percent / 100).quantize(Decimal('0.01'))` likewise (the Decimal
product and quotient are exact, see the header note). -/
def wallet_post (mac : String → String → String) (secret : String)
    (s : State) (userId : Nat) (amount : ℤ) (promo_code : String) :
    Except TopUpError (TopUpResp × State) :=
  match topupValidate s userId amount promo_code with
  | .error e => .error e
  | .ok promo =>
    let cashback : ℤ := roundHalfEvenDiv amount 100
    let promo_bonus : ℤ :=
      match promo with
      | some p => roundHalfEvenDiv (amount * (p.percent : ℤ)) 100
      | none => 0
    let txId := s.next_topup_id
    let tx : TopUpTransaction :=
      { id := txId, user := userId, amount := amount, cashback := cashback,
        promo_code := promo.map (fun p => p.id), promo_bonus := promo_bonus,
        is_active := false, activated_at := none }
    let s1 : State := { s with topups := s.topups ++ [tx], next_topup_id := txId + 1 }
    let s2 : State := { s1 with notifications := s1.notifications ++
        [⟨userId, "info", "Top-up requested", topup_requested_message amount cashback⟩] }
    .ok ({ transaction_id := txId, amount := amount, cashback := cashback,
           promo_bonus := promo_bonus,
           approve_token := approvalToken mac secret txId userId }, s2)

/-- One row of the queryset snapshot taken by the admin action: the
transaction together with the balance its joined `user` object carried at
query time (`queryset.select_related("user")` materialises a separate user
copy per row; referential integrity guarantees the join succeeds, the
default 0 is never read). -/
def adminSnapshot (s : State) (txIds : List Nat) : List (TopUpTransaction × ℤ) :=
  txIds.filterMap (fun i =>
    (findTopup s i).map (fun tx => (tx, ((findUser s tx.user).map User.balance).getD 0)))

/-- The body of one pending-row iteration of
`TopUpTransactionAdmin.approve_topups` (admin.py lines 82-98).  `ub` is the
snapshot balance carried by the row's own joined user copy — the write
`user.balance = Decimal(user.balance) + total` starts from it, not from the
live row. -/
def adminApproveStep (s : State) (tx : TopUpTransaction) (ub : ℤ) : State :=
  let has_used : Bool :=
    match tx.promo_code with
    | some p => usageExists s tx.user p
    | none => false
  let promo_bonus : ℤ :=
    match tx.promo_code with
    | some _ => if !has_used then tx.promo_bonus else 0
    | none => 0
  let total : ℤ := quantizeCents (tx.amount + tx.cashback + promo_bonus)
  let s1 : State := { s with users := s.users.map (fun w =>
      if w.id == tx.user then { w with balance := quantizeCents (ub + total) } else w) }
  let s2 : State := saveTopup s1 { tx with is_active := true, activated_at := some s.now }
  let s3 : State :=
    match tx.promo_code with
    | some p => if !has_used then { s2 with usages := s2.usages ++ [⟨tx.user, p⟩] } else s2
    | none => s2
  { s3 with notifications := s3.notifications ++
      [⟨tx.user, "success", "Top-up approved",
        topup_approved_message tx.amount tx.cashback promo_bonus⟩] }

/-- The loop of `TopUpTransactionAdmin.approve_topups`: processes the
pre-fetched rows in order against the live state.  (The counter is
assembled on the way out of the recursion; the resulting count is the same
as the source's running counter.) -/
def adminApproveLoop (s : State) : List (TopUpTransaction × ℤ) → Nat × State
  | [] => (0, s)
  | (tx, ub) :: rest =>
    if tx.is_active then adminApproveLoop s rest
    else
      let (n, sf) := adminApproveLoop (adminApproveStep s tx ub) rest
      (n + 1, sf)

/-- `core/admin.py` `TopUpTransactionAdmin.approve_topups` (lines 75-101):
evaluate the queryset once (taking a per-row user copy), then run the
approval loop; returns the approved count and the final state. -/
def approve_topups (s : State) (txIds : List Nat) : Nat × State :=
  adminApproveLoop s (adminSnapshot s txIds)

/-- Folding the shared core approval over a list of request ids (the state
reached by approving them one at a time through
`_approve_topup_transaction`). -/
def approveMany (s : State) (ids : List Nat) : State :=
  ids.foldl (fun s i => (approve_topup_transaction s i).2) s

/-- How many of the one-at-a-time core approvals report `applied = true`. -/
def approveManyCount (s : State) : List Nat → Nat
  | [] => 0
  | i :: rest =>
    (if (approve_topup_transaction s i).1 then 1 else 0) +
      approveManyCount (approve_topup_transaction s i).2 rest

/-- Number of PromoUsage rows for an (account, promocode) pair. -/
def usageCount (s : State) (u p : Nat) : Nat :=
  s.usages.countP (fun q => q.user == u && q.promocode == p)

/-- The promo bonus that approving `txId` from state `s` credits to the
pair `(u, p)`: nonzero only when the transaction is pending, belongs to
`u`, references promo `p`, and the pair has no usage row yet (mirrors the
`promo_bonus` computation inside the approval operation). -/
def bonusCredited (s : State) (txId : Nat) (u p : Nat) : ℤ :=
  match findTopup s txId with
  | some tx =>
    if !tx.is_active && tx.user == u && tx.promo_code == some p && !usageExists s u p then
      tx.promo_bonus
    else 0
  | none => 0

/-- How many approvals along the sequence credit a nonzero promo bonus to
the pair `(u, p)`. -/
def grantCount (s : State) (ids : List Nat) (u p : Nat) : Nat :=
  match ids with
  | [] => 0
  | i :: rest =>
    (if bonusCredited s i u p ≠ 0 then 1 else 0) +
      grantCount (approve_topup_transaction s i).2 rest u p

/-- `project_name or 'Unnamed Project'`: Python `or` falls through on the
falsy values `None` and `""`. -/
def projectNameOr (project_name : Option String) : String :=
  match project_name with
  | some n => if n = "" then "Unnamed Project" else n
  | none => "Unnamed Project"

/-- `core/views.py` `ProjectViewSet.start_project` (lines 106-134): deduct
the fixed fee `Decimal('10000')` (= 1000000 cents) and create the project.
Returns whether the project was created.  The route requires an
authenticated user, so the `none` arm of the lookup is unreachable. -/
def start_project (s : State) (userId : Nat) (project_name : Option String) :
    Bool × State :=
  match findUser s userId with
  | none => (false, s)
  | some user =>
    if user.balance < 1000000 then (false, s)
    else
      let s1 : State := saveUser s { user with balance := user.balance - 1000000 }
      let pname : String := projectNameOr project_name
      let proj : Project := { id := s1.next_project_id, owner := userId, project_name := pname }
      let s2 : State :=
        { s1 with
          projects := s1.projects ++ [proj]
          next_project_id := s1.next_project_id + 1 }
      let s3 : State := { s2 with notifications := s2.notifications ++
          [⟨userId, "success", "New project started",
            "Fee 10000 deducted. Project " ++ pname ++ " created."⟩] }
      (true, s3)

/-- The referral notification text (abstracted; no claim depends on it). -/
def referral_bonus_message : String :=
  "Your friend registered. +1000 added."

/-- The referrer lookup predicate of `RegisterSerializer.create`:
`User.objects.filter(referral_code__iexact=input_ref)`. -/
def referralCodeMatches (input_ref : String) (u : User) : Bool :=
  match u.referral_code with
  | some c => pyLower c == pyLower input_ref
  | none => false

/-- `core/serializers.py` `RegisterSerializer.create` (lines 19-47): create
the account, assign it a referral code, and credit the referrer when a
valid distinct referral code was supplied.  The `secrets.token_hex`
generate-until-unused loop is abstracted: `freshCode` is the code the loop
settles on (the loop guarantees it is unused, which theorems state as a
hypothesis).  The referral credit is `Decimal('1000')` = 100000 cents. -/
def register_create (s : State) (phone : String) (referral_code_input : String)
    (freshCode : String) : Nat × State :=
  let input_ref := pyTrim referral_code_input
  let newId := s.next_user_id
  let user : User := { id := newId, phone_number := phone, balance := 0,
                       referral_code := none, referred_by := none }
  let s1 : State := { s with users := s.users ++ [user], next_user_id := newId + 1 }
  -- `if not user.referral_code:` — always true for a freshly created user
  let user := { user with referral_code := some freshCode }
  let s2 : State := saveUser s1 user
  if input_ref ≠ "" then
    match s2.users.find? (referralCodeMatches input_ref) with
    | some referrer =>
      if referrer.id ≠ newId then
        let user := { user with referred_by := some referrer.id }
        let s3 : State := saveUser s2 user
        let referrer := { referrer with
          balance := quantizeCents (referrer.balance + 100000) }
        let s4 : State := saveUser s3 referrer
        (newId, { s4 with notifications := s4.notifications ++
            [⟨referrer.id, "success", "Referal bonusi", referral_bonus_message⟩] })
      else (newId, s2)
    | none => (newId, s2)
  else (newId, s2)

/-- Python `int(str)` on the requestId fragment of the callback data:
optional surrounding whitespace, optional sign, decimal digits (digit-group
underscores, accepted by Python, never arise in the inputs the claims are
about and are not modelled). -/
def pyInt (str : String) : Option ℤ :=
  let t := (pyTrim str).data
  let (sign, digits) :=
    match t with
    | '-' :: rest => ((-1 : ℤ), rest)
    | '+' :: rest => ((1 : ℤ), rest)
    | _ => ((1 : ℤ), t)
  if digits.length > 0 && digits.all (fun c => c.isDigit) then
    some (sign * ((digits.foldl (fun acc c => acc * 10 + (c.toNat - 48)) (0 : Nat) : Nat) : ℤ))
  else none

/-- The message part of an inbound `callback_query` (only the identifiers
the handler reads; the outbound Telegram API calls built from them are
fire-and-forget side channels with no effect on the state and are not
modelled). -/
structure TgMessage where
  chat_id : Option ℤ
  message_id : Option ℤ
deriving DecidableEq

/-- The `callback_query` object of the inbound webhook payload. -/
structure CallbackQuery where
  data : Option String
  message : Option TgMessage
deriving DecidableEq

/-- The inbound webhook JSON body. -/
structure WebhookPayload where
  callback_query : Option CallbackQuery
deriving DecidableEq

/-- A DRF `Response` as the claims observe it: the HTTP status (`Response`
defaults to 200) and the `ok`/`error`/`status` fields of the JSON body. -/
structure ApiResp where
  http_status : Nat
  ok : Bool
  error : Option String
  body_status : Option String
deriving DecidableEq

/-- `core/views.py` `TelegramWebhookView.post` (lines 333-396). -/
def telegram_webhook (s : State) (payload : WebhookPayload) : ApiResp × State :=
  match payload.callback_query with
  | none => (⟨200, true, none, none⟩, s)
  | some callback =>
    let data := callback.data.getD ""
    if !(data.data.contains ':') then (⟨200, true, none, none⟩, s)
    else
      -- action, txid = data.split(':', 1)
      let act : String := ⟨data.data.takeWhile (fun c => c ≠ ':')⟩
      let txid : String := ⟨data.data.drop (act.data.length + 1)⟩
      match pyInt txid with
      | none => (⟨200, false, some "tx not found", none⟩, s)
      | some n =>
        match s.topups.find? (fun t => (t.id : ℤ) == n) with
        | none => (⟨200, false, some "tx not found", none⟩, s)
        | some tx =>
          if act = "approve" then
            let r := approve_topup_transaction s tx.id
            (⟨200, true, none, some "approved"⟩, r.2)
          else if act = "reject" then
            (⟨200, true, none, some "rejected"⟩, s)
          else (⟨200, true, none, none⟩, s)

/-- `core/views.py` `ApproveTopupView.get` (lines 246-283).  Query
parameters are strings, the absent parameter modelled as `""` (matching the
`if not txid or not token` falsiness test).  `hmac.compare_digest` is a
timing-safe string equality. -/
def approve_topup_view (mac : String → String → String) (secret : String)
    (s : State) (txid token : String) : ApiResp × State :=
  if txid = "" || token = "" then (⟨400, false, some "missing params", none⟩, s)
  else
    match pyInt txid with
    | none => (⟨404, false, some "tx not found", none⟩, s)
    | some n =>
      match s.topups.find? (fun t => (t.id : ℤ) == n) with
      | none => (⟨404, false, some "tx not found", none⟩, s)
      | some tx =>
        let expected := approvalToken mac secret tx.id tx.user
        if expected ≠ token then (⟨403, false, some "invalid token", none⟩, s)
        else
          let r := approve_topup_transaction s tx.id
          (⟨200, true, none, some "approved"⟩, r.2)

/-- `core/views.py` `RejectTopupView.get` (lines 289-325): identical
parameter handling and token validation, but no ledger mutation. -/
def reject_topup_view (mac : String → String → String) (secret : String)
    (s : State) (txid token : String) : ApiResp × State :=
  if txid = "" || token = "" then (⟨400, false, some "missing params", none⟩, s)
  else
    match pyInt txid with
    | none => (⟨404, false, some "tx not found", none⟩, s)
    | some n =>
      match s.topups.find? (fun t => (t.id : ℤ) == n) with
      | none => (⟨404, false, some "tx not found", none⟩, s)
      | some tx =>
        let expected := approvalToken mac secret tx.id tx.user
        if expected ≠ token then (⟨403, false, some "invalid token", none⟩, s)
        else (⟨200, true, none, some "rejected"⟩, s)

/-! ### Concrete fixtures (used by witness and counterexample theorems) -/

/-- A concrete keyed-hash stand-in for the witness theorems (the embedding
is parametric in the hash). -/
def mac0 : String → String → String := fun k m => k ++ "#" ++ m

/-- Fixture account. -/
def userA : User :=
  { id := 1, phone_number := "998900000001", balance := 0,
    referral_code := some "AA11BB22", referred_by := none }

/-- Fixture promo code, 20 percent. -/
def promoA : Promocode := { id := 10, code := "SAVE20", percent := 20, is_active := true }

/-- Fixture pending top-up: 1000.00 with 10.00 cashback, no promo. -/
def txPending : TopUpTransaction :=
  { id := 1, user := 1, amount := 100000, cashback := 1000, promo_code := none,
    promo_bonus := 0, is_active := false, activated_at := none }

/-- Fixture already-approved top-up. -/
def txActive : TopUpTransaction :=
  { id := 2, user := 1, amount := 50000, cashback := 500, promo_code := none,
    promo_bonus := 0, is_active := true, activated_at := some 3 }

/-- Fixture pending top-up carrying the promo code. -/
def txPromo : TopUpTransaction :=
  { id := 3, user := 1, amount := 50000, cashback := 500, promo_code := some 10,
    promo_bonus := 10000, is_active := false, activated_at := none }

/-- A second pending top-up carrying the same promo code. -/
def txPromo2 : TopUpTransaction :=
  { id := 4, user := 1, amount := 20000, cashback := 200, promo_code := some 10,
    promo_bonus := 4000, is_active := false, activated_at := none }

/-- Fixture database. -/
def sA : State :=
  { users := [userA], promocodes := [promoA],
    topups := [txPending, txActive, txPromo, txPromo2],
    usages := [], notifications := [], projects := [],
    next_user_id := 2, next_topup_id := 5, next_project_id := 1, now := 7 }

/-- The promo bonus the approval operation grants (the `promo_bonus` local
of `_approve_topup_transaction`, spelled out as a function of the state). -/
def approvalBonus (s : State) (tx : TopUpTransaction) : ℤ :=
  match tx.promo_code with
  | some p => if !(usageExists s tx.user p) then tx.promo_bonus else 0
  | none => 0

/-- The PromoUsage rows the approval operation inserts. -/
def approvalNewUsage (s : State) (tx : TopUpTransaction) : List PromocodeUsage :=
  match tx.promo_code with
  | some p => if !(usageExists s tx.user p) then [⟨tx.user, p⟩] else []
  | none => []

/-- The transactions a list of ids resolves to. -/
def resolvedTxs (s : State) (txIds : List Nat) : List TopUpTransaction :=
  txIds.filterMap (findTopup s)

/-- The state one pending-row iteration of the admin loop produces, spelled
out: the balance write starts from the snapshot balance `ub`, not from the
live row. -/
def adminStepState (s : State) (tx : TopUpTransaction) (ub : ℤ) : State :=
  { s with
    users := s.users.map (fun w => if w.id == tx.user then
      { w with balance := quantizeCents (ub + quantizeCents (tx.amount + tx.cashback + approvalBonus s tx)) } else w)
    topups := s.topups.map (fun t => if t.id == tx.id then
      { tx with is_active := true, activated_at := some s.now } else t)
    usages := s.usages ++ approvalNewUsage s tx
    notifications := s.notifications ++
      [⟨tx.user, "success", "Top-up approved",
        topup_approved_message tx.amount tx.cashback (approvalBonus s tx)⟩] }

/-- Fixture account with a large balance (15000.00). -/
def userRich : User :=
  { id := 2, phone_number := "998900000002", balance := 1500000,
    referral_code := some "CC33DD44", referred_by := none }

/-- Fixture pending top-up owned by the rich account. -/
def txRich : TopUpTransaction :=
  { id := 6, user := 2, amount := 10000, cashback := 100, promo_code := none,
    promo_bonus := 0, is_active := false, activated_at := none }

/-- Fixture database containing the rich account and its top-up. -/
def sB : State :=
  { sA with users := [userA, userRich], topups := sA.topups ++ [txRich], next_topup_id := 7 }

/-- Webhook payload whose callback data names a request id that does not
resolve. -/
def plNotFound : WebhookPayload :=
  { callback_query := some { data := some "approve:99", message := none } }

/-- Webhook payload with no callback_query at all. -/
def plNoCallback : WebhookPayload := { callback_query := none }

/-- Webhook payload whose data has no colon-separated pair. -/
def plNoColon : WebhookPayload :=
  { callback_query := some { data := some "hello", message := none } }

/-- The state after the fixture wallet top-up request (1000.00, no promo)
by the fixture account. -/
def sWallet : State :=
  ((wallet_post mac0 "sk" sA 1 100000 "").toOption.map Prod.snd).getD sA

/-- The response of that fixture wallet top-up request. -/
def respWallet : TopUpResp :=
  ((wallet_post mac0 "sk" sA 1 100000 "").toOption.map Prod.fst).getD
    { transaction_id := 0, amount := 0, cashback := 0, promo_bonus := 0, approve_token := "" }

/-- Fixture state in which the fixture account has already used the
fixture promo code. -/
def sUsed : State := { sA with usages := [⟨1, 10⟩] }

/-! ### Helper lemmas -/

/-- `find?` by key commutes with a key-preserving row rewrite. -/
theorem find?_map_of_key {α : Type} (idf : α → Nat) (f : α → α)
    (hf : ∀ a, idf (f a) = idf a) (l : List α) (i : Nat) :
    (l.map f).find? (fun a => idf a == i) = (l.find? (fun a => idf a == i)).map f := by
  induction l with
  | nil => rfl
  | cons a l ih =>
    by_cases h : idf a == i
    · have h' : idf (f a) == i := by rw [hf a]; exact h
      simp [List.find?_cons, h, h']
    · have h' : ¬(idf (f a) == i) := by rw [hf a]; exact h
      simp only [List.map_cons, List.find?_cons]
      simp only [Bool.not_eq_true] at h h'
      rw [h, h']
      exact ih

theorem findTopup_saveTopup (s : State) (tx : TopUpTransaction) (i : Nat) :
    findTopup (saveTopup s tx) i =
      (findTopup s i).map (fun t => if t.id == tx.id then tx else t) := by
  unfold findTopup saveTopup
  exact find?_map_of_key (fun t => t.id) (fun t => if t.id == tx.id then tx else t)
    (fun a => by
      by_cases h : a.id == tx.id
      · simp only [beq_iff_eq] at h
        simp [h]
      · simp [h])
    s.topups i

theorem findUser_saveUser (s : State) (u : User) (i : Nat) :
    findUser (saveUser s u) i =
      (findUser s i).map (fun w => if w.id == u.id then u else w) := by
  unfold findUser saveUser
  exact find?_map_of_key (fun w => w.id) (fun w => if w.id == u.id then u else w)
    (fun a => by
      by_cases h : a.id == u.id
      · simp only [beq_iff_eq] at h
        simp [h]
      · simp [h])
    s.users i

/-- `find?` by an integer-cast key over a list followed by a freshly
appended row with that key finds the appended row. -/
theorem find?_append_key (l : List TopUpTransaction) (tx : TopUpTransaction)
    (k : Nat) (hk : tx.id = k) (hfresh : ∀ t ∈ l, t.id ≠ k) :
    List.find? (fun t => (t.id : ℤ) == ((k : Nat) : ℤ)) (l ++ [tx]) = some tx := by
  rw [List.find?_append]
  have hnone : List.find? (fun t => (t.id : ℤ) == ((k : Nat) : ℤ)) l = none := by
    rw [List.find?_eq_none]
    intro x hx
    simp only [beq_iff_eq, Int.natCast_inj]
    exact hfresh x hx
  rw [hnone, Option.none_or, List.find?_cons]
  simp [hk]

theorem approve_of_notFound (s : State) (txId : Nat)
    (h : findTopup s txId = none) :
    approve_topup_transaction s txId = (false, s) := by
  unfold approve_topup_transaction
  rw [h]

theorem approve_of_isActive (s : State) (txId : Nat) (tx : TopUpTransaction)
    (h : findTopup s txId = some tx) (ha : tx.is_active = true) :
    approve_topup_transaction s txId = (false, s) := by
  unfold approve_topup_transaction
  rw [h]
  simp [ha]

/-- Full characterisation of a successful (pending-transaction) pass
through `_approve_topup_transaction`. -/
theorem approve_of_pending (s : State) (txId : Nat) (tx : TopUpTransaction)
    (h : findTopup s txId = some tx) (ha : tx.is_active = false) :
    approve_topup_transaction s txId =
      (true,
        { s with
          users :=
            match findUser s tx.user with
            | some u => s.users.map (fun w => if w.id == u.id then
                { u with balance := u.balance + (tx.amount + tx.cashback + approvalBonus s tx) } else w)
            | none => s.users
          topups := s.topups.map (fun t => if t.id == tx.id then
            { tx with is_active := true, activated_at := some s.now } else t)
          usages := s.usages ++ approvalNewUsage s tx
          notifications := s.notifications ++
            [⟨tx.user, "success", "Top-up approved",
              topup_approved_message tx.amount tx.cashback (approvalBonus s tx)⟩] }) := by
  unfold approve_topup_transaction approvalBonus approvalNewUsage
  rw [h]
  simp only [ha, Bool.false_eq_true, if_false]
  cases hpc : tx.promo_code with
  | none =>
    cases hfu : findUser s tx.user <;>
      simp [hfu, saveTopup, saveUser, quantizeCents]
  | some p =>
    by_cases hu : usageExists s tx.user p <;>
      cases hfu : findUser s tx.user <;>
        simp [hfu, hu, saveTopup, saveUser, quantizeCents]

/-- C1: approving an already-Approved request is a no-op that reports
`applied = false`, and a second approval of the same request id — whatever
the first one did — is such a no-op, so approving twice credits the balance
exactly once and leaves the request Approved. -/
theorem approve_topup_idempotent (s : State) (txId : Nat) :
    (∀ tx, findTopup s txId = some tx → tx.is_active = true →
      approve_topup_transaction s txId = (false, s)) ∧
    approve_topup_transaction (approve_topup_transaction s txId).2 txId =
      (false, (approve_topup_transaction s txId).2) := by
  refine ⟨fun tx h ha => approve_of_isActive s txId tx h ha, ?_⟩
  cases h : findTopup s txId with
  | none =>
    rw [approve_of_notFound s txId h]
    exact approve_of_notFound s txId h
  | some tx =>
    cases ha : tx.is_active with
    | true =>
      rw [approve_of_isActive s txId tx h ha]
      exact approve_of_isActive s txId tx h ha
    | false =>
      rw [approve_of_pending s txId tx h ha]
      apply approve_of_isActive _ txId
        { tx with is_active := true, activated_at := some s.now }
      · show findTopup _ txId = _
        unfold findTopup
        have hfind := find?_map_of_key (fun t => t.id)
          (fun t => if t.id == tx.id then
            { tx with is_active := true, activated_at := some s.now } else t)
          (fun a => by
            by_cases hb : a.id == tx.id
            · simp only [beq_iff_eq] at hb
              simp [hb]
            · simp [hb]) s.topups txId
        rw [hfind]
        unfold findTopup at h
        rw [h]
        have : tx.id == tx.id := by simp
        simp
      · rfl

/-- Witness for C1 at a concrete state: request 2 is already approved and
re-approving it mutates nothing; a double approval of pending request 1 is
settled by the second conjunct. -/
theorem approve_topup_idempotent_witness :
    approve_topup_transaction sA 2 = (false, sA) ∧
    approve_topup_transaction (approve_topup_transaction sA 1).2 1 =
      (false, (approve_topup_transaction sA 1).2) :=
  ⟨(approve_topup_idempotent sA 2).1 txActive (by decide) (by decide),
   (approve_topup_idempotent sA 1).2⟩

/-- C2: one successful approval of a pending request with amount `x > 0`
reports `applied = true`, brings the account balance to
`balance + x + cashback + bonus` (each sum an exact 2-decimal value, the
`.quantize(Decimal('0.01'))` steps being the identity on exact cent
values), where `bonus` is the stored promo bonus exactly when the
(account, promo) pair is still unused and 0 otherwise; it flips the status
to Approved, stamps `activated_at`, and appends exactly one success
Notification. -/
theorem approve_pending_credits (s : State) (txId : Nat)
    (tx : TopUpTransaction) (u : User)
    (h : findTopup s txId = some tx) (ha : tx.is_active = false)
    (hamt : 0 < tx.amount) (hu : findUser s tx.user = some u) :
    (approve_topup_transaction s txId).1 = true ∧
    findUser (approve_topup_transaction s txId).2 tx.user =
      some { u with balance := u.balance + (tx.amount + tx.cashback + approvalBonus s tx) } ∧
    findTopup (approve_topup_transaction s txId).2 txId =
      some { tx with is_active := true, activated_at := some s.now } ∧
    (approve_topup_transaction s txId).2.notifications =
      s.notifications ++ [⟨tx.user, "success", "Top-up approved",
        topup_approved_message tx.amount tx.cashback (approvalBonus s tx)⟩] := by
  rw [approve_of_pending s txId tx h ha]
  refine ⟨rfl, ?_, ?_, rfl⟩
  · show findUser _ tx.user = _
    unfold findUser at hu ⊢
    show List.find? _ (match List.find? (fun u => u.id == tx.user) s.users with
      | some u => s.users.map (fun w => if w.id == u.id then
          { u with balance := u.balance + (tx.amount + tx.cashback + approvalBonus s tx) } else w)
      | none => s.users) = _
    rw [hu]
    have hmap := find?_map_of_key (fun w => w.id)
      (fun w => if w.id == u.id then
        { u with balance := u.balance + (tx.amount + tx.cashback + approvalBonus s tx) } else w)
      (fun a => by
        by_cases hb : a.id == u.id
        · simp only [beq_iff_eq] at hb
          simp [hb]
        · simp [hb]) s.users tx.user
    rw [hmap, hu]
    simp
  · show findTopup _ txId = _
    unfold findTopup at h ⊢
    show List.find? _ (s.topups.map (fun t => if t.id == tx.id then
      { tx with is_active := true, activated_at := some s.now } else t)) = _
    have hmap := find?_map_of_key (fun t => t.id)
      (fun t => if t.id == tx.id then
        { tx with is_active := true, activated_at := some s.now } else t)
      (fun a => by
        by_cases hb : a.id == tx.id
        · simp only [beq_iff_eq] at hb
          simp [hb]
        · simp [hb]) s.topups txId
    rw [hmap, h]
    simp

/-- Witness for C2: approving pending request 3 (amount 500.00, cashback
5.00, promo bonus 100.00 still unused) on the fixture state credits
605.00. -/
theorem approve_pending_credits_witness :
    (approve_topup_transaction sA 3).1 = true ∧
    findUser (approve_topup_transaction sA 3).2 txPromo.user =
      some { userA with balance := userA.balance +
        (txPromo.amount + txPromo.cashback + approvalBonus sA txPromo) } ∧
    findTopup (approve_topup_transaction sA 3).2 3 =
      some { txPromo with is_active := true, activated_at := some sA.now } ∧
    (approve_topup_transaction sA 3).2.notifications =
      sA.notifications ++ [⟨txPromo.user, "success", "Top-up approved",
        topup_approved_message txPromo.amount txPromo.cashback (approvalBonus sA txPromo)⟩] :=
  approve_pending_credits sA 3 txPromo userA (by decide) (by decide) (by decide) (by decide)

theorem usageCount_eq_zero_iff (s : State) (u p : Nat) :
    usageCount s u p = 0 ↔ usageExists s u p = false := by
  unfold usageCount usageExists
  rw [List.countP_eq_zero, List.any_eq_false]

theorem usageCount_pos_iff (s : State) (u p : Nat) :
    0 < usageCount s u p ↔ usageExists s u p = true := by
  unfold usageCount usageExists
  rw [List.countP_pos, List.any_eq_true]

/-- One approval step either leaves the PromoUsage count of a pair alone,
or raises it from 0 to 1. -/
theorem usageCount_step (s : State) (i u p : Nat) :
    usageCount (approve_topup_transaction s i).2 u p = usageCount s u p ∨
    (usageCount s u p = 0 ∧ usageCount (approve_topup_transaction s i).2 u p = 1) := by
  cases h : findTopup s i with
  | none => rw [approve_of_notFound s i h]; left; rfl
  | some tx =>
    cases ha : tx.is_active with
    | true => rw [approve_of_isActive s i tx h ha]; left; rfl
    | false =>
      rw [approve_of_pending s i tx h ha]
      show usageCount { s with users := _, topups := _, usages := _, notifications := _ } u p = _ ∨ _
      unfold usageCount approvalNewUsage
      cases hpc : tx.promo_code with
      | none => left; simp [List.countP_append]
      | some q =>
        by_cases hu : usageExists s tx.user q
        · left; simp [hu, List.countP_append]
        · by_cases hm : ((tx.user == u && q == p) = true)
          · right
            have h2 : tx.user = u := by
              have := hm
              simp only [Bool.and_eq_true, beq_iff_eq] at this
              exact this.1
            have h3 : q = p := by
              have := hm
              simp only [Bool.and_eq_true, beq_iff_eq] at this
              exact this.2
            have h0 : usageCount s u p = 0 := by
              rw [usageCount_eq_zero_iff]
              rw [← h2, ← h3]
              simpa using hu
            refine ⟨h0, ?_⟩
            unfold usageCount at h0
            simp [hu, List.countP_append, List.countP_cons, hm, h0]
          · left
            simp [hu, List.countP_append, List.countP_cons, hm]

/-- A pair with an existing PromoUsage row is never credited a bonus. -/
theorem bonus_zero_of_used (s : State) (i u p : Nat)
    (h : usageExists s u p = true) : bonusCredited s i u p = 0 := by
  unfold bonusCredited
  cases hf : findTopup s i with
  | none => rfl
  | some tx => simp [h]

/-- A step that credits a nonzero bonus for a pair starts from a state with
no PromoUsage row for the pair and ends in a state with one. -/
theorem count_pos_of_bonus (s : State) (i u p : Nat)
    (h : bonusCredited s i u p ≠ 0) :
    usageCount s u p = 0 ∧ 0 < usageCount (approve_topup_transaction s i).2 u p := by
  unfold bonusCredited at h
  cases hf : findTopup s i with
  | none => rw [hf] at h; exact absurd rfl h
  | some tx =>
    simp only [hf] at h
    by_cases hc : ((!tx.is_active && tx.user == u && tx.promo_code == some p
        && !usageExists s u p) = true)
    · have hc' := hc
      simp only [Bool.and_eq_true, Bool.not_eq_true', beq_iff_eq] at hc'
      obtain ⟨⟨⟨ha, hu2⟩, hp2⟩, hused⟩ := hc'
      have h0 : usageCount s u p = 0 := (usageCount_eq_zero_iff s u p).mpr hused
      refine ⟨h0, ?_⟩
      rw [approve_of_pending s i tx hf ha]
      show 0 < usageCount { s with users := _, topups := _, usages := _, notifications := _ } u p
      unfold usageCount approvalNewUsage
      rw [hp2]
      have hun : usageExists s tx.user p = false := by rw [hu2]; exact hused
      simp [hun, List.countP_append, List.countP_cons, hu2]
      exact Or.inr ⟨⟨u, p⟩, ⟨hused, rfl⟩, rfl, rfl⟩
    · rw [if_neg hc] at h
      exact absurd rfl h

/-- Once a PromoUsage row exists for the pair, no later approval credits a
bonus to it and the row count never changes. -/
theorem grants_zero_of_used (u p : Nat) : ∀ (ids : List Nat) (s : State),
    0 < usageCount s u p →
    grantCount s ids u p = 0 ∧
    usageCount (approveMany s ids) u p = usageCount s u p := by
  intro ids
  induction ids with
  | nil => intro s _; exact ⟨rfl, rfl⟩
  | cons i rest ih =>
    intro s h
    have hb : bonusCredited s i u p = 0 :=
      bonus_zero_of_used s i u p ((usageCount_pos_iff s u p).mp h)
    rcases usageCount_step s i u p with heq | ⟨h0, _⟩
    · have hrec := ih (approve_topup_transaction s i).2 (by rw [heq]; exact h)
      refine ⟨?_, ?_⟩
      · simp only [grantCount, hb, ne_eq, not_true_eq_false, if_neg]
        simpa using hrec.1
      · show usageCount (approveMany _ (i :: rest)) u p = _
        simp only [approveMany, List.foldl_cons]
        rw [show (List.foldl (fun s i => (approve_topup_transaction s i).2)
          (approve_topup_transaction s i).2 rest) =
            approveMany (approve_topup_transaction s i).2 rest from rfl]
        rw [hrec.2, heq]
    · omega

/-- C3: starting from a state with no PromoUsage row for an (account,
promo-code) pair, any sequence of approvals credits a nonzero bonus to the
pair at most once, leaves at most one PromoUsage row for it, and after a
bonus-granting approval exactly one PromoUsage row exists — later
approvals referencing the same code credit 0. -/
theorem promo_bonus_at_most_once (s : State) (ids : List Nat) (u p : Nat)
    (h : usageCount s u p = 0) :
    grantCount s ids u p ≤ 1 ∧
    usageCount (approveMany s ids) u p ≤ 1 ∧
    (1 ≤ grantCount s ids u p → usageCount (approveMany s ids) u p = 1) := by
  induction ids generalizing s with
  | nil =>
    refine ⟨by simp [grantCount], ?_, ?_⟩
    · rw [show approveMany s [] = s from rfl, h]
      omega
    · intro habs
      simp [grantCount] at habs
  | cons i rest ih =>
    have hcons : approveMany s (i :: rest) =
        approveMany (approve_topup_transaction s i).2 rest := rfl
    have hgcons : grantCount s (i :: rest) u p =
        (if bonusCredited s i u p ≠ 0 then 1 else 0) +
          grantCount (approve_topup_transaction s i).2 rest u p := rfl
    rcases usageCount_step s i u p with heq | ⟨_, h1⟩
    · have h0' : usageCount (approve_topup_transaction s i).2 u p = 0 := by
        rw [heq]; exact h
      have hb : bonusCredited s i u p = 0 := by
        by_contra hb
        have := (count_pos_of_bonus s i u p hb).2
        omega
      have hrec := ih (approve_topup_transaction s i).2 h0'
      rw [hcons, hgcons]
      simp only [hb, ne_eq, not_true_eq_false, if_neg, Nat.zero_add]
      simpa using hrec
    · have hrest := grants_zero_of_used u p rest (approve_topup_transaction s i).2 (by omega)
      rw [hcons, hgcons, hrest.1, hrest.2, h1]
      by_cases hb : bonusCredited s i u p ≠ 0 <;> simp [hb]

/-- Witness for C3: the fixture has two pending top-ups (ids 3 and 4) of
the same account both carrying promo 10; approving both in sequence grants
the bonus once and leaves one PromoUsage row. -/
theorem promo_bonus_at_most_once_witness :
    grantCount sA [3, 4] 1 10 ≤ 1 ∧
    usageCount (approveMany sA [3, 4]) 1 10 ≤ 1 ∧
    (1 ≤ grantCount sA [3, 4] 1 10 → usageCount (approveMany sA [3, 4]) 1 10 = 1) :=
  promo_bonus_at_most_once sA [3, 4] 1 10 (by decide)

/-- C7: starting a project with balance below the fixed fee 10000 fails
and changes nothing; with sufficient balance it debits exactly the fee,
creates exactly one project row, and appends one Notification, as one
unit. -/
theorem start_project_fee (s : State) (userId : Nat) (name : Option String)
    (u : User) (hu : findUser s userId = some u) :
    (u.balance < 1000000 → start_project s userId name = (false, s)) ∧
    (1000000 ≤ u.balance →
      (start_project s userId name).1 = true ∧
      findUser (start_project s userId name).2 userId =
        some { u with balance := u.balance - 1000000 } ∧
      (start_project s userId name).2.projects = s.projects ++
        [{ id := s.next_project_id, owner := userId,
           project_name := projectNameOr name }] ∧
      (start_project s userId name).2.notifications = s.notifications ++
        [⟨userId, "success", "New project started",
          "Fee 10000 deducted. Project " ++ projectNameOr name ++ " created."⟩]) := by
  have hid : u.id = userId := by
    have := List.find?_some hu
    simpa using this
  constructor
  · intro hlt
    unfold start_project
    simp only [hu]
    rw [if_pos hlt]
  · intro hge
    have hnlt : ¬(u.balance < 1000000) := by omega
    unfold start_project
    simp only [hu]
    rw [if_neg hnlt]
    refine ⟨rfl, ?_, ?_, rfl⟩
    · show findUser _ userId = _
      unfold findUser saveUser
      show List.find? _ (s.users.map (fun w =>
        if w.id == u.id then { u with balance := u.balance - 1000000 } else w)) = _
      have hmap := find?_map_of_key (fun w => w.id)
        (fun w => if w.id == u.id then { u with balance := u.balance - 1000000 } else w)
        (fun a => by
          by_cases hb : a.id == u.id
          · simp only [beq_iff_eq] at hb
            simp [hb]
          · simp [hb]) s.users userId
      rw [hmap]
      unfold findUser at hu
      rw [hu]
      simp
    · show (s.projects ++ _) = _
      unfold saveUser
      rfl

/-- Witness for C7: the poor fixture account (balance 0.00) cannot start a
project; the rich one (balance 15000.00) pays the fee and gets the row. -/
theorem start_project_fee_witness :
    start_project sB 1 (some "P") = (false, sB) ∧
    ((start_project sB 2 (some "P")).1 = true ∧
      findUser (start_project sB 2 (some "P")).2 2 =
        some { userRich with balance := userRich.balance - 1000000 } ∧
      (start_project sB 2 (some "P")).2.projects = sB.projects ++
        [{ id := sB.next_project_id, owner := 2,
           project_name := projectNameOr (some "P") }] ∧
      (start_project sB 2 (some "P")).2.notifications = sB.notifications ++
        [⟨2, "success", "New project started",
          "Fee 10000 deducted. Project " ++ projectNameOr (some "P") ++ " created."⟩]) :=
  ⟨(start_project_fee sB 1 (some "P") userA (by decide)).1 (by decide),
   (start_project_fee sB 2 (some "P") userRich (by decide)).2 (by decide)⟩

/-- With pairwise-distinct primary keys, `find?` by a member's key returns
that member. -/
theorem find?_of_mem_nodup (l : List User) (hnd : (l.map User.id).Nodup)
    (r : User) (hr : r ∈ l) : l.find? (fun w => w.id == r.id) = some r := by
  induction l with
  | nil => cases hr
  | cons a t ih =>
    rcases List.mem_cons.mp hr with rfl | hr2
    · simp [List.find?_cons]
    · rw [List.map_cons] at hnd
      rcases List.nodup_cons.mp hnd with ⟨hna, hnt⟩
      have hne : ¬(a.id == r.id) = true := by
        simp only [beq_iff_eq]
        intro he
        exact hna (he ▸ List.mem_map_of_mem User.id hr2)
      rw [List.find?_cons]
      simp only [hne]
      exact ih hnt hr2

/-- Writing a row whose key `k` is fresh for `l` back into `l ++ [old-copy]`
replaces only the appended copy. -/
theorem map_save_append_new (l : List User) (u0 u1 : User) (k : Nat)
    (h0 : u0.id = k) (hold : ∀ w ∈ l, w.id ≠ k) :
    (l ++ [u0]).map (fun w => if w.id == k then u1 else w) = l ++ [u1] := by
  rw [List.map_append]
  congr 1
  · have hcong : ∀ w ∈ l, (if w.id == k then u1 else w) = id w := by
      intro w hw
      have : ¬(w.id == k) = true := by
        simp only [beq_iff_eq]
        exact hold w hw
      simp [this]
    rw [List.map_congr_left hcong, List.map_id]
  · simp [h0]

/-- C8: registration with a valid referral code belonging to a distinct
existing account credits that account the fixed 1000.00 bonus exactly once,
notifies it once, and sets the new account's `referred_by`; with no code or
a code matching no existing account (including the fresh account's own
code) registration still succeeds and nothing is credited. -/
theorem register_referral (s : State) (phone input fresh : String)
    (hnd : (s.users.map User.id).Nodup)
    (hid : ∀ w ∈ s.users, w.id ≠ s.next_user_id) :
    (register_create s phone input fresh).1 = s.next_user_id ∧
    (pyTrim input = "" →
      (register_create s phone input fresh).2 =
        { s with
          users := s.users ++ [{ id := s.next_user_id, phone_number := phone, balance := 0, referral_code := some fresh, referred_by := none }]
          next_user_id := s.next_user_id + 1 }) ∧
    (∀ r, pyTrim input ≠ "" →
      s.users.find? (referralCodeMatches (pyTrim input)) = some r →
      findUser (register_create s phone input fresh).2 r.id =
        some { r with balance := r.balance + 100000 } ∧
      findUser (register_create s phone input fresh).2 s.next_user_id =
        some { id := s.next_user_id, phone_number := phone, balance := 0, referral_code := some fresh, referred_by := some r.id } ∧
      (register_create s phone input fresh).2.notifications =
        s.notifications ++ [⟨r.id, "success", "Referal bonusi", referral_bonus_message⟩]) ∧
    (s.users.find? (referralCodeMatches (pyTrim input)) = none →
      (register_create s phone input fresh).2 =
        { s with
          users := s.users ++ [{ id := s.next_user_id, phone_number := phone, balance := 0, referral_code := some fresh, referred_by := none }]
          next_user_id := s.next_user_id + 1 }) := by
  have hs2 : saveUser
      { s with
        users := s.users ++ [{ id := s.next_user_id, phone_number := phone, balance := 0, referral_code := none, referred_by := none }]
        next_user_id := s.next_user_id + 1 }
      { id := s.next_user_id, phone_number := phone, balance := 0, referral_code := some fresh, referred_by := none } =
      { s with
        users := s.users ++ [{ id := s.next_user_id, phone_number := phone, balance := 0, referral_code := some fresh, referred_by := none }]
        next_user_id := s.next_user_id + 1 } := by
    unfold saveUser
    dsimp only
    rw [map_save_append_new s.users _ _ s.next_user_id rfl hid]
  by_cases hin : pyTrim input = ""
  · have hres : register_create s phone input fresh =
        (s.next_user_id,
          { s with
            users := s.users ++ [{ id := s.next_user_id, phone_number := phone, balance := 0, referral_code := some fresh, referred_by := none }]
            next_user_id := s.next_user_id + 1 }) := by
      simp only [register_create]
      rw [hs2]
      rw [if_neg (fun hcon => hcon hin)]
    rw [hres]
    exact ⟨rfl, fun _ => rfl, fun r htrim _ => absurd hin htrim, fun _ => rfl⟩
  · cases hfo : s.users.find? (referralCodeMatches (pyTrim input)) with
    | some r =>
      have hmem := List.mem_of_find?_eq_some hfo
      have hrid : r.id ≠ s.next_user_id := hid r hmem
      have hs3 : saveUser
          { s with
            users := s.users ++ [{ id := s.next_user_id, phone_number := phone, balance := 0, referral_code := some fresh, referred_by := none }]
            next_user_id := s.next_user_id + 1 }
          { id := s.next_user_id, phone_number := phone, balance := 0, referral_code := some fresh, referred_by := some r.id } =
          { s with
            users := s.users ++ [{ id := s.next_user_id, phone_number := phone, balance := 0, referral_code := some fresh, referred_by := some r.id }]
            next_user_id := s.next_user_id + 1 } := by
        unfold saveUser
        dsimp only
        rw [map_save_append_new s.users _ _ s.next_user_id rfl hid]
      have hres : register_create s phone input fresh =
          (s.next_user_id,
            { s with
              users := List.map
                (fun w : User => if w.id == r.id then { r with balance := quantizeCents (r.balance + 100000) } else w)
                (s.users ++ [{ id := s.next_user_id, phone_number := phone, balance := 0, referral_code := some fresh, referred_by := some r.id }])
              next_user_id := s.next_user_id + 1
              notifications := s.notifications ++ [⟨r.id, "success", "Referal bonusi", referral_bonus_message⟩] }) := by
        simp only [register_create]
        rw [hs2]
        rw [if_pos hin]
        dsimp only
        rw [List.find?_append, hfo]
        dsimp only [Option.or]
        rw [if_pos hrid]
        rw [hs3]
        rfl
      rw [hres]
      refine ⟨rfl, fun hcon => absurd hcon hin, ?_, ?_⟩
      · intro r2 _ hf2
        injection hf2 with hf2
        subst hf2
        refine ⟨?_, ?_, rfl⟩
        · show findUser _ r.id = _
          unfold findUser
          dsimp only
          rw [List.map_append, List.find?_append]
          have hmap := find?_map_of_key (fun w => w.id)
            (fun w => if w.id == r.id then { r with balance := quantizeCents (r.balance + 100000) } else w)
            (fun a => by
              by_cases hb : a.id == r.id
              · simp only [beq_iff_eq] at hb
                simp [hb]
              · simp [hb]) s.users r.id
          rw [hmap, find?_of_mem_nodup s.users hnd r hmem]
          simp [quantizeCents]
        · show findUser _ s.next_user_id = _
          unfold findUser
          dsimp only
          rw [List.map_append, List.find?_append]
          have hnone : (s.users.map (fun w =>
              if w.id == r.id then { r with balance := quantizeCents (r.balance + 100000) } else w)).find?
                (fun w => w.id == s.next_user_id) = none := by
            rw [List.find?_eq_none]
            intro x hx
            rcases List.mem_map.mp hx with ⟨w, hw, rfl⟩
            by_cases hb : w.id == r.id
            · simp only [hb, if_true, beq_iff_eq]
              intro hcon
              exact hrid hcon
            · simp only [hb, if_false, beq_iff_eq]
              exact hid w hw
          rw [hnone, Option.none_or]
          simp [Ne.symm hrid]
      · intro hf2
        cases hf2
    | none =>
      have hres : register_create s phone input fresh =
          (s.next_user_id,
            { s with
              users := s.users ++ [{ id := s.next_user_id, phone_number := phone, balance := 0, referral_code := some fresh, referred_by := none }]
              next_user_id := s.next_user_id + 1 }) := by
        simp only [register_create]
        rw [hs2]
        rw [if_pos hin]
        dsimp only
        rw [List.find?_append, hfo]
        dsimp only [Option.none_or]
        rw [List.find?_cons]
        cases hp1 : (pyLower fresh == pyLower (pyTrim input)) with
        | true =>
          simp only [referralCodeMatches, hp1]
          rw [if_neg (fun hcon => hcon rfl)]
        | false =>
          simp only [referralCodeMatches, hp1]
          rfl
      rw [hres]
      refine ⟨rfl, fun hcon => absurd hcon hin, ?_, fun _ => rfl⟩
      intro r2 _ hf2
      cases hf2

/-- Witness for C8: registering with the case-flipped referral code of the
fixture account credits it 1000.00 once, notifies it once, and links the
new account to it. -/
theorem register_referral_witness :
    findUser (register_create sA "998900000009" "aa11bb22" "FFFF0000").2 userA.id =
      some { userA with balance := userA.balance + 100000 } ∧
    findUser (register_create sA "998900000009" "aa11bb22" "FFFF0000").2 sA.next_user_id =
      some { id := sA.next_user_id, phone_number := "998900000009", balance := 0, referral_code := some "FFFF0000", referred_by := some userA.id } ∧
    (register_create sA "998900000009" "aa11bb22" "FFFF0000").2.notifications =
      sA.notifications ++ [⟨userA.id, "success", "Referal bonusi", referral_bonus_message⟩] :=
  (register_referral sA "998900000009" "aa11bb22" "FFFF0000"
    (by decide) (by decide)).2.2.1 userA (by decide) (by decide)

/-- C9 (amended): a payload with no `callback_query` or with colon-less
data is answered 200 `{ok: true}` with no mutation; a payload whose
requestId fragment does not parse or does not resolve is also answered 200
with no mutation, but its body is `{ok: false, error: "tx not found"}`,
not `{ok: true}`. -/
theorem webhook_malformed (s : State) (payload : WebhookPayload) :
    (payload.callback_query = none →
      telegram_webhook s payload = (⟨200, true, none, none⟩, s)) ∧
    (∀ cb, payload.callback_query = some cb →
      ((cb.data.getD "").data.contains ':' = false →
        telegram_webhook s payload = (⟨200, true, none, none⟩, s)) ∧
      ((cb.data.getD "").data.contains ':' = true →
        (pyInt ⟨(cb.data.getD "").data.drop
            (((cb.data.getD "").data.takeWhile (fun c => c ≠ ':')).length + 1)⟩ = none ∨
          ∃ n, pyInt ⟨(cb.data.getD "").data.drop
              (((cb.data.getD "").data.takeWhile (fun c => c ≠ ':')).length + 1)⟩ = some n ∧
            s.topups.find? (fun t => (t.id : ℤ) == n) = none) →
        telegram_webhook s payload = (⟨200, false, some "tx not found", none⟩, s))) := by
  refine ⟨?_, ?_⟩
  · intro hnone
    unfold telegram_webhook
    rw [hnone]
  · intro cb hcb
    refine ⟨?_, ?_⟩
    · intro hcolon
      unfold telegram_webhook
      rw [hcb]
      simp only [hcolon, Bool.not_false, if_true]
    · intro hcolon hbad
      unfold telegram_webhook
      rw [hcb]
      simp only [hcolon, Bool.not_true, if_false]
      rcases hbad with hpi | ⟨n, hpi, hfind⟩
      · rw [hpi]
        rfl
      · rw [hpi]
        simp only [Bool.false_eq_true, if_false]
        rw [hfind]

/-- Witness for C9 (amended): concrete runs of all three malformed shapes
against the fixture state. -/
theorem webhook_malformed_witness :
    telegram_webhook sA plNoCallback = (⟨200, true, none, none⟩, sA) ∧
    telegram_webhook sA plNoColon = (⟨200, true, none, none⟩, sA) ∧
    telegram_webhook sA plNotFound = (⟨200, false, some "tx not found", none⟩, sA) :=
  ⟨(webhook_malformed sA plNoCallback).1 (by decide),
   ((webhook_malformed sA plNoColon).2 { data := some "hello", message := none }
     (by decide)).1 (by decide),
   ((webhook_malformed sA plNotFound).2 { data := some "approve:99", message := none }
     (by decide)).2 (by decide) (Or.inr ⟨99, by decide, by decide⟩)⟩

/-- Counterexample for C9 as stated: the claim says an unresolvable
requestId is answered with `{ok: true}`, but the handler answers
`{ok: false, error: "tx not found"}` (status 200, no mutation). -/
theorem webhook_not_found_counterexample :
    (telegram_webhook sA plNotFound).1.ok = false ∧
    (telegram_webhook sA plNotFound).1.http_status = 200 ∧
    (telegram_webhook sA plNotFound).2 = sA := by decide

/-- C10: the approve link and the reject link validate exactly the same
token for a given request — the keyed hash covers only
`requestId:accountId`, not the action — so their acceptance/rejection
outcomes coincide for every supplied token, and the token issued when the
request was created authorizes both links. -/
theorem approve_reject_token_symmetric (mac : String → String → String)
    (secret : String) (s : State) (txid token : String) :
    ((approve_topup_view mac secret s txid token).1.http_status = 200 ↔
      (reject_topup_view mac secret s txid token).1.http_status = 200) ∧
    (∀ userId amount code resp s2,
      (∀ t ∈ s.topups, t.id ≠ s.next_topup_id) →
      wallet_post mac secret s userId amount code = .ok (resp, s2) →
      resp.approve_token ≠ "" →
      ∀ ts, pyInt ts = some (resp.transaction_id : ℤ) → ts ≠ "" →
      (approve_topup_view mac secret s2 ts resp.approve_token).1.http_status = 200 ∧
      (reject_topup_view mac secret s2 ts resp.approve_token).1.http_status = 200) := by
  constructor
  · unfold approve_topup_view reject_topup_view
    by_cases h1 : txid = ""
    · simp [h1]
    · by_cases h2 : token = ""
      · simp [h1, h2]
      · have hcond : (decide (txid = "") || decide (token = "")) = false := by
          simp [h1, h2]
        simp only [hcond, Bool.false_eq_true, if_false]
        cases hpi : pyInt txid with
        | none => simp
        | some n =>
          cases hf : s.topups.find? (fun t => (t.id : ℤ) == n) with
          | none => simp [hf]
          | some tx =>
            simp only [hf]
            by_cases ht : approvalToken mac secret tx.id tx.user = token
            · simp [ht]
            · simp [ht]
  · intro userId amount code resp s2 hfresh hw htok ts hts hts0
    cases hv : topupValidate s userId amount code with
    | error e =>
      unfold wallet_post at hw
      rw [hv] at hw
      cases hw
    | ok promo =>
      unfold wallet_post at hw
      rw [hv] at hw
      simp only [Except.ok.injEq, Prod.mk.injEq] at hw
      obtain ⟨hresp, hs2⟩ := hw
      subst hresp
      subst hs2
      dsimp only at hts htok ⊢
      constructor
      · unfold approve_topup_view
        rw [if_neg (by simp [hts0, htok])]
        rw [hts]
        dsimp only
        rw [find?_append_key s.topups _ s.next_topup_id rfl hfresh]
        dsimp only
        rw [if_neg (fun hcon => hcon rfl)]
      · unfold reject_topup_view
        rw [if_neg (by simp [hts0, htok])]
        rw [hts]
        dsimp only
        rw [find?_append_key s.topups _ s.next_topup_id rfl hfresh]
        dsimp only
        rw [if_neg (fun hcon => hcon rfl)]

/-- Witness for C10: a wrong token is judged identically by both links on
the fixture state, and the token issued for the fixture top-up request
(id 5) is accepted by both links. -/
theorem approve_reject_token_symmetric_witness :
    ((approve_topup_view mac0 "sk" sA "3" "zzz").1.http_status = 200 ↔
      (reject_topup_view mac0 "sk" sA "3" "zzz").1.http_status = 200) ∧
    ((approve_topup_view mac0 "sk" sWallet "5" respWallet.approve_token).1.http_status = 200 ∧
      (reject_topup_view mac0 "sk" sWallet "5" respWallet.approve_token).1.http_status = 200) :=
  ⟨(approve_reject_token_symmetric mac0 "sk" sA "3" "zzz").1,
   (approve_reject_token_symmetric mac0 "sk" sA "5" "unused").2 1 100000 "" respWallet sWallet
     (by decide) (by rfl) (by decide) "5" (by decide) (by decide)⟩

/-- C6: a top-up request with `amount ≤ 0` is rejected with a validation
error before anything is persisted; a supplied promo code is looked up
case-insensitively among active codes, failing when none matches and when
a PromoUsage already exists for (account, code); on success a Pending
transaction is persisted with `cashback = round(amount*0.01, 2)` and, when
a promo is present, `promoBonus = round(amount*percent/100, 2)`, plus one
informational Notification. -/
theorem wallet_post_spec (mac : String → String → String) (secret : String)
    (s : State) (userId : Nat) (amount : ℤ) (code : String) :
    (amount ≤ 0 →
      wallet_post mac secret s userId amount code = .error .invalidAmount) ∧
    (0 < amount → pyTrim code ≠ "" →
      s.promocodes.find? (fun p => pyLower p.code == pyLower (pyTrim code) && p.is_active) = none →
      wallet_post mac secret s userId amount code = .error .unknownOrInactivePromo) ∧
    (∀ promo, 0 < amount → pyTrim code ≠ "" →
      s.promocodes.find? (fun p => pyLower p.code == pyLower (pyTrim code) && p.is_active) = some promo →
      usageExists s userId promo.id = true →
      wallet_post mac secret s userId amount code = .error .promoAlreadyUsed) ∧
    (∀ promo, 0 < amount → pyTrim code ≠ "" →
      s.promocodes.find? (fun p => pyLower p.code == pyLower (pyTrim code) && p.is_active) = some promo →
      usageExists s userId promo.id = false →
      wallet_post mac secret s userId amount code = .ok
        ({ transaction_id := s.next_topup_id, amount := amount, cashback := roundHalfEvenDiv amount 100, promo_bonus := roundHalfEvenDiv (amount * (promo.percent : ℤ)) 100, approve_token := approvalToken mac secret s.next_topup_id userId },
          { s with
            topups := s.topups ++ [{ id := s.next_topup_id, user := userId, amount := amount, cashback := roundHalfEvenDiv amount 100, promo_code := some promo.id, promo_bonus := roundHalfEvenDiv (amount * (promo.percent : ℤ)) 100, is_active := false, activated_at := none }]
            notifications := s.notifications ++ [⟨userId, "info", "Top-up requested", topup_requested_message amount (roundHalfEvenDiv amount 100)⟩]
            next_topup_id := s.next_topup_id + 1 })) ∧
    (0 < amount → pyTrim code = "" →
      wallet_post mac secret s userId amount code = .ok
        ({ transaction_id := s.next_topup_id, amount := amount, cashback := roundHalfEvenDiv amount 100, promo_bonus := 0, approve_token := approvalToken mac secret s.next_topup_id userId },
          { s with
            topups := s.topups ++ [{ id := s.next_topup_id, user := userId, amount := amount, cashback := roundHalfEvenDiv amount 100, promo_code := none, promo_bonus := 0, is_active := false, activated_at := none }]
            notifications := s.notifications ++ [⟨userId, "info", "Top-up requested", topup_requested_message amount (roundHalfEvenDiv amount 100)⟩]
            next_topup_id := s.next_topup_id + 1 })) := by
  refine ⟨?_, ?_, ?_, ?_, ?_⟩
  · intro hle
    unfold wallet_post topupValidate
    rw [if_pos hle]
  · intro hpos hcode hfind
    unfold wallet_post topupValidate
    rw [if_neg (by omega), if_pos hcode, hfind]
  · intro promo hpos hcode hfind hused
    unfold wallet_post topupValidate
    rw [if_neg (by omega), if_pos hcode, hfind]
    dsimp only
    rw [if_pos hused]
  · intro promo hpos hcode hfind hunused
    unfold wallet_post topupValidate
    rw [if_neg (by omega), if_pos hcode, hfind]
    dsimp only
    rw [if_neg (by rw [hunused]; exact Bool.false_ne_true)]
    rfl
  · intro hpos hcode
    unfold wallet_post topupValidate
    rw [if_neg (by omega), if_neg (fun hcon => hcon hcode)]
    rfl

/-- Witness for C6: all five branches evaluated on the fixture state —
negative amount, unknown code, already-used code, fresh promo code (20
percent of 500.00 = 100.00 bonus), and no code. -/
theorem wallet_post_spec_witness :
    wallet_post mac0 "sk" sA 1 (-500) "" = .error .invalidAmount ∧
    wallet_post mac0 "sk" sA 1 50000 "NOPE" = .error .unknownOrInactivePromo ∧
    wallet_post mac0 "sk" sUsed 1 50000 "save20" = .error .promoAlreadyUsed ∧
    wallet_post mac0 "sk" sA 1 50000 " Save20 " = .ok
      ({ transaction_id := sA.next_topup_id, amount := 50000, cashback := roundHalfEvenDiv 50000 100, promo_bonus := roundHalfEvenDiv (50000 * (promoA.percent : ℤ)) 100, approve_token := approvalToken mac0 "sk" sA.next_topup_id 1 },
        { sA with
          topups := sA.topups ++ [{ id := sA.next_topup_id, user := 1, amount := 50000, cashback := roundHalfEvenDiv 50000 100, promo_code := some promoA.id, promo_bonus := roundHalfEvenDiv (50000 * (promoA.percent : ℤ)) 100, is_active := false, activated_at := none }]
          notifications := sA.notifications ++ [⟨1, "info", "Top-up requested", topup_requested_message 50000 (roundHalfEvenDiv 50000 100)⟩]
          next_topup_id := sA.next_topup_id + 1 }) ∧
    wallet_post mac0 "sk" sA 1 100000 "  " = .ok
      ({ transaction_id := sA.next_topup_id, amount := 100000, cashback := roundHalfEvenDiv 100000 100, promo_bonus := 0, approve_token := approvalToken mac0 "sk" sA.next_topup_id 1 },
        { sA with
          topups := sA.topups ++ [{ id := sA.next_topup_id, user := 1, amount := 100000, cashback := roundHalfEvenDiv 100000 100, promo_code := none, promo_bonus := 0, is_active := false, activated_at := none }]
          notifications := sA.notifications ++ [⟨1, "info", "Top-up requested", topup_requested_message 100000 (roundHalfEvenDiv 100000 100)⟩]
          next_topup_id := sA.next_topup_id + 1 }) :=
  ⟨(wallet_post_spec mac0 "sk" sA 1 (-500) "").1 (by decide),
   (wallet_post_spec mac0 "sk" sA 1 50000 "NOPE").2.1 (by decide) (by decide) (by decide),
   (wallet_post_spec mac0 "sk" sUsed 1 50000 "save20").2.2.1 promoA (by decide) (by decide) (by decide) (by decide),
   (wallet_post_spec mac0 "sk" sA 1 50000 " Save20 ").2.2.2.1 promoA (by decide) (by decide) (by decide) (by decide),
   (wallet_post_spec mac0 "sk" sA 1 100000 "  ").2.2.2.2 (by decide) (by decide)⟩

/-- Counterexample for C4 as stated: for amount 12.50 the product
`12.50 * 0.01 = 0.125` has a third fractional digit of 5, and the stored
cashback is 0.12 — the candidate NEARER to zero (banker's rounding to the
even cent) — while round-half-away-from-zero would store 0.13. -/
theorem rounding_half_away_counterexample :
    ((wallet_post mac0 "sk" sA 1 1250 "").toOption.map (fun r => r.1.cashback)) = some 12 ∧
    roundHalfAwayDivSpec 1250 100 = 13 ∧ (12 : ℤ) ≠ 13 := by decide

/-- C4 (amended): every monetary rounding step quantizes to 2 decimal
places by rounding to the NEAREST cent with ties to the EVEN cent (Python
decimal ROUND_HALF_EVEN, the `quantize` default) — not half-away-from-zero;
in particular the request-time cashback is stored as
`roundHalfEvenDiv amount 100`, which differs from the true quotient by at
most half a cent and lands on an even cent at exact halves. -/
theorem monetary_rounding_half_to_even (num den : ℤ) (hden : 0 < den) :
    (∀ (mac : String → String → String) (secret : String) (s : State) (userId : Nat),
      0 < num →
      (wallet_post mac secret s userId num "").toOption.map (fun r => r.1.cashback) =
        some (roundHalfEvenDiv num 100)) ∧
    (-den ≤ 2 * (num - roundHalfEvenDiv num den * den) ∧
      2 * (num - roundHalfEvenDiv num den * den) ≤ den) ∧
    (2 * (num - num.fdiv den * den) = den → roundHalfEvenDiv num den % 2 = 0) := by
  have hsum := Int.fdiv_add_fmod num den
  have hr : num - num.fdiv den * den = num.fmod den := by linarith
  have h0 : 0 ≤ num.fmod den := Int.fmod_nonneg' num hden
  have h1 : num.fmod den < den := Int.fmod_lt_of_pos num hden
  refine ⟨?_, ?_, ?_⟩
  · intro mac secret s userId hpos
    unfold wallet_post topupValidate
    rw [if_neg (by omega), if_neg (fun h => h rfl)]
    rfl
  · unfold roundHalfEvenDiv
    dsimp only
    split_ifs with hA hB hC
    · rw [hr] at hA ⊢
      omega
    · have he : num - (num.fdiv den + 1) * den = num.fmod den - den := by
        rw [← hr]; ring
      rw [hr] at hB
      rw [he]
      omega
    · rw [hr] at hA hB ⊢
      omega
    · have he : num - (num.fdiv den + 1) * den = num.fmod den - den := by
        rw [← hr]; ring
      rw [hr] at hA hB
      rw [he]
      omega
  · intro htie
    unfold roundHalfEvenDiv
    dsimp only
    rw [hr] at htie
    have hA : ¬(2 * (num - num.fdiv den * den) < den) := by rw [hr]; omega
    have hB : ¬(den < 2 * (num - num.fdiv den * den)) := by rw [hr]; omega
    rw [if_neg hA, if_neg hB]
    by_cases hC : num.fdiv den % 2 = 0
    · rw [if_pos hC]
      exact hC
    · rw [if_neg hC]
      omega

/-- Witness for C4 (amended) at den = 100, num = 1250 (the 12.50 top-up):
nearness within half a cent and the even-cent tie result 12. -/
theorem monetary_rounding_half_to_even_witness :
    ((wallet_post mac0 "sk" sA 1 1250 "").toOption.map (fun r => r.1.cashback) =
      some (roundHalfEvenDiv 1250 100)) ∧
    (-100 ≤ 2 * (1250 - roundHalfEvenDiv 1250 100 * 100) ∧
      2 * (1250 - roundHalfEvenDiv 1250 100 * 100) ≤ 100) ∧
    ((2 : ℤ) * (1250 - (1250 : ℤ).fdiv 100 * 100) = 100 →
      roundHalfEvenDiv 1250 100 % 2 = 0) :=
  ⟨(monetary_rounding_half_to_even 1250 100 (by decide)).1 mac0 "sk" sA 1 (by decide),
   (monetary_rounding_half_to_even 1250 100 (by decide)).2.1,
   (monetary_rounding_half_to_even 1250 100 (by decide)).2.2⟩

/-- Mapping an id-preserving rewrite over a list leaves the id column
unchanged. -/
theorem map_key_of_preserve {α : Type} (idf : α → Nat) (f : α → α)
    (hf : ∀ a, idf (f a) = idf a) (l : List α) :
    (l.map f).map idf = l.map idf := by
  rw [List.map_map]
  exact List.map_congr_left (fun a _ => hf a)

/-- An already-approved snapshot row is skipped by the admin loop. -/
theorem adminLoop_cons_active (s : State) (tx : TopUpTransaction) (ub : ℤ)
    (rows : List (TopUpTransaction × ℤ)) (ha : tx.is_active = true) :
    adminApproveLoop s ((tx, ub) :: rows) = adminApproveLoop s rows := by
  simp [adminApproveLoop, ha]

/-- A pending snapshot row is processed through `adminApproveStep` and
counted. -/
theorem adminLoop_cons_pending (s : State) (tx : TopUpTransaction) (ub : ℤ)
    (rows : List (TopUpTransaction × ℤ)) (ha : tx.is_active = false) :
    adminApproveLoop s ((tx, ub) :: rows) =
      ((adminApproveLoop (adminApproveStep s tx ub) rows).1 + 1,
        (adminApproveLoop (adminApproveStep s tx ub) rows).2) := by
  cases hl : adminApproveLoop (adminApproveStep s tx ub) rows with
  | mk n sf => simp [adminApproveLoop, ha, hl]

/-- The admin loop body in explicit-record form. -/
theorem adminApproveStep_eq (s : State) (tx : TopUpTransaction) (ub : ℤ) :
    adminApproveStep s tx ub = adminStepState s tx ub := by
  unfold adminApproveStep adminStepState approvalBonus approvalNewUsage
  cases hpc : tx.promo_code with
  | none => simp [saveTopup]
  | some p =>
    by_cases hu : usageExists s tx.user p <;> simp [hu, saveTopup]

/-- The admin step state (snapshot balance read from the same state) is
exactly the shared core approval's result state, provided user primary
keys are unique. -/
theorem adminStep_eq_core (s : State) (i : Nat) (tx : TopUpTransaction)
    (hndu : (s.users.map User.id).Nodup)
    (hf : findTopup s i = some tx) (ha : tx.is_active = false) :
    adminStepState s tx (((findUser s tx.user).map User.balance).getD 0) =
      (approve_topup_transaction s i).2 := by
  rw [approve_of_pending s i tx hf ha]
  unfold adminStepState
  cases hu : findUser s tx.user with
  | none =>
    have hnone : ∀ w ∈ s.users, ¬(w.id == tx.user) = true := by
      intro w hw
      unfold findUser at hu
      simpa using List.find?_eq_none.mp hu w hw
    have hmapid : (s.users.map (fun w => if w.id == tx.user then
        { w with balance := quantizeCents (((none : Option User).map User.balance).getD 0 +
          quantizeCents (tx.amount + tx.cashback + approvalBonus s tx)) } else w)) = s.users := by
      have : ∀ w ∈ s.users, (if w.id == tx.user then
          { w with balance := quantizeCents (((none : Option User).map User.balance).getD 0 +
            quantizeCents (tx.amount + tx.cashback + approvalBonus s tx)) } else w) = id w := by
        intro w hw
        simp [hnone w hw]
      rw [List.map_congr_left this, List.map_id]
    simp only [hmapid]
  | some u =>
    have hu2 : List.find? (fun w => w.id == tx.user) s.users = some u := hu
    have humem := List.mem_of_find?_eq_some hu2
    have huid : u.id = tx.user := by
      have := List.find?_some hu2
      simpa using this
    have hgetD : (((some u).map User.balance).getD 0) = u.balance := rfl
    rw [hgetD]
    have hcong : ∀ w ∈ s.users, (if w.id == tx.user then
        { w with balance := quantizeCents (u.balance +
          quantizeCents (tx.amount + tx.cashback + approvalBonus s tx)) } else w) =
        (if w.id == u.id then
          { u with balance := u.balance + (tx.amount + tx.cashback + approvalBonus s tx) } else w) := by
      intro w hw
      by_cases hb : (w.id == tx.user) = true
      · have hwid : w.id = tx.user := by simpa using hb
        have hwu : w = u := List.inj_on_of_nodup_map hndu hw humem (by rw [hwid, huid])
        subst hwu
        simp [hb, hwid, huid, quantizeCents]
      · have hb2 : ¬(w.id == u.id) = true := by
          rw [huid]
          exact hb
        simp [hb, hb2]
    simp only [List.map_congr_left hcong]

/-- Two states that resolve the listed ids and the owning users alike take
the same admin queryset snapshot. -/
theorem adminSnapshot_congr (s s2 : State) (ids : List Nat)
    (h : ∀ j ∈ ids, findTopup s2 j = findTopup s j ∧
      (∀ tj, findTopup s j = some tj →
        findUser s2 tj.user = findUser s tj.user)) :
    adminSnapshot s2 ids = adminSnapshot s ids := by
  unfold adminSnapshot
  apply List.filterMap_congr
  intro j hj
  rcases h j hj with ⟨h1, h2⟩
  rw [h1]
  cases hfj : findTopup s j with
  | none => rfl
  | some tj =>
    show some (tj, ((findUser s2 tj.user).map User.balance).getD 0) =
      some (tj, ((findUser s tj.user).map User.balance).getD 0)
    rw [h2 tj hfj]

/-- C5 (amended): the admin bulk-approve action equals the fold of the
shared core approval — same per-request state transition (balance
increment with live promo re-check, status flip, `activated_at` stamp,
PromoUsage insert, success Notification), skipping already-approved rows,
with the applied count "N of M" — PROVIDED the selected transactions
belong to pairwise-distinct accounts (and primary keys are unique).  For
two selected pending transactions of the same account the snapshot
balance makes the admin action lose the first credit (see the
counterexample). -/
theorem admin_bulk_refines_core (txIds : List Nat) : ∀ (s : State),
    (s.users.map User.id).Nodup →
    (s.topups.map TopUpTransaction.id).Nodup →
    (resolvedTxs s txIds).Pairwise (fun a b => a.user ≠ b.user) →
    approve_topups s txIds = (approveManyCount s txIds, approveMany s txIds) := by
  induction txIds with
  | nil => intro s _ _ _; rfl
  | cons i rest ih =>
    intro s hndu hndt hpw
    cases hf : findTopup s i with
    | none =>
      have hres : resolvedTxs s (i :: rest) = resolvedTxs s rest := by
        unfold resolvedTxs
        rw [List.filterMap_cons, hf]
      have hsnap : adminSnapshot s (i :: rest) = adminSnapshot s rest := by
        unfold adminSnapshot
        rw [List.filterMap_cons]
        rw [hf]
        rfl
      have happ := approve_of_notFound s i hf
      have hcnt : approveManyCount s (i :: rest) = approveManyCount s rest := by
        simp [approveManyCount, happ]
      have hmany : approveMany s (i :: rest) = approveMany s rest := by
        simp [approveMany, happ]
      show adminApproveLoop s (adminSnapshot s (i :: rest)) = _
      rw [hsnap, hcnt, hmany]
      exact ih s hndu hndt (hres ▸ hpw)
    | some tx =>
      have hres : resolvedTxs s (i :: rest) = tx :: resolvedTxs s rest := by
        unfold resolvedTxs
        rw [List.filterMap_cons, hf]
      rcases List.pairwise_cons.mp (hres ▸ hpw) with ⟨hhead, htail⟩
      have hsnap : adminSnapshot s (i :: rest) =
          (tx, ((findUser s tx.user).map User.balance).getD 0) :: adminSnapshot s rest := by
        unfold adminSnapshot
        rw [List.filterMap_cons, hf]
        rfl
      cases ha : tx.is_active with
      | true =>
        have happ := approve_of_isActive s i tx hf ha
        have hcnt : approveManyCount s (i :: rest) = approveManyCount s rest := by
          simp [approveManyCount, happ]
        have hmany : approveMany s (i :: rest) = approveMany s rest := by
          simp [approveMany, happ]
        show adminApproveLoop s (adminSnapshot s (i :: rest)) = _
        rw [hsnap, adminLoop_cons_active s tx _ _ ha, hcnt, hmany]
        exact ih s hndu hndt htail
      | false =>
        have htxmem := List.mem_of_find?_eq_some (show List.find? (fun t => t.id == i) s.topups = some tx from hf)
        have hstep : adminApproveStep s tx (((findUser s tx.user).map User.balance).getD 0) =
            (approve_topup_transaction s i).2 := by
          rw [adminApproveStep_eq]
          exact adminStep_eq_core s i tx hndu hf ha
        have hcore := approve_of_pending s i tx hf ha
        -- per-id stability of lookups across the first approval
        have hfindj : ∀ j ∈ rest, findTopup (approve_topup_transaction s i).2 j = findTopup s j ∧
            (∀ tj, findTopup s j = some tj →
              findUser (approve_topup_transaction s i).2 tj.user = findUser s tj.user) := by
          intro j hj
          constructor
          · show findTopup _ j = _
            rw [hcore]
            unfold findTopup
            have hmap := find?_map_of_key (fun t => t.id)
              (fun t => if t.id == tx.id then
                { tx with is_active := true, activated_at := some s.now } else t)
              (fun a => by
                by_cases hb : a.id == tx.id
                · simp only [beq_iff_eq] at hb
                  simp [hb]
                · simp [hb]) s.topups j
            rw [hmap]
            cases hfj : List.find? (fun t => t.id == j) s.topups with
            | none => rfl
            | some tj =>
              have htjmem := List.mem_of_find?_eq_some hfj
              have htjne : ¬(tj.id == tx.id) = true := by
                simp only [beq_iff_eq]
                intro hcon
                have htjtx : tj = tx := List.inj_on_of_nodup_map hndt htjmem htxmem hcon
                have htjres : tj ∈ resolvedTxs s rest :=
                  List.mem_filterMap.mpr ⟨j, hj, hfj⟩
                exact hhead tj htjres (by rw [htjtx])
              show some (if (tj.id == tx.id) = true then
                { tx with is_active := true, activated_at := some s.now } else tj) = some tj
              rw [if_neg htjne]
          · intro tj hfj
            have htjres : tj ∈ resolvedTxs s rest :=
              List.mem_filterMap.mpr ⟨j, hj, hfj⟩
            have htjuser : tx.user ≠ tj.user := hhead tj htjres
            show findUser _ tj.user = _
            rw [hcore]
            unfold findUser
            cases hu : List.find? (fun w => w.id == tx.user) s.users with
            | none => rfl
            | some u =>
              have huid : u.id = tx.user := by
                have := List.find?_some hu
                simpa using this
              have hmap := find?_map_of_key (fun w => w.id)
                (fun w => if w.id == u.id then
                  { u with balance := u.balance + (tx.amount + tx.cashback + approvalBonus s tx) } else w)
                (fun a => by
                  by_cases hb : a.id == u.id
                  · simp only [beq_iff_eq] at hb
                    simp [hb]
                  · simp [hb]) s.users tj.user
              rw [hmap]
              cases hfu : List.find? (fun w => w.id == tj.user) s.users with
              | none => rfl
              | some u2 =>
                have hu2id : u2.id = tj.user := by
                  have := List.find?_some hfu
                  simpa using this
                have hne : ¬(u2.id == u.id) = true := by
                  simp only [beq_iff_eq]
                  rw [hu2id, huid]
                  exact fun hcon => htjuser hcon.symm
                show some (if (u2.id == u.id) = true then
                  { u with balance := u.balance + (tx.amount + tx.cashback + approvalBonus s tx) } else u2) = some u2
                rw [if_neg hne]
        have hsnap2 : adminSnapshot (approve_topup_transaction s i).2 rest = adminSnapshot s rest :=
          adminSnapshot_congr s (approve_topup_transaction s i).2 rest hfindj
        have hndu2 : ((approve_topup_transaction s i).2.users.map User.id).Nodup := by
          rw [hcore]
          cases hu : findUser s tx.user with
          | none => exact hndu
          | some u =>
            show ((s.users.map (fun w => if w.id == u.id then
                { u with balance := u.balance + (tx.amount + tx.cashback + approvalBonus s tx) } else w)).map User.id).Nodup
            rw [map_key_of_preserve User.id _ (fun a => by
              by_cases hb : a.id == u.id
              · simp only [beq_iff_eq] at hb
                simp [hb]
              · simp [hb]) s.users]
            exact hndu
        have hndt2 : ((approve_topup_transaction s i).2.topups.map TopUpTransaction.id).Nodup := by
          rw [hcore]
          show ((s.topups.map (fun t => if t.id == tx.id then
              { tx with is_active := true, activated_at := some s.now } else t)).map TopUpTransaction.id).Nodup
          rw [map_key_of_preserve TopUpTransaction.id _ (fun a => by
            by_cases hb : a.id == tx.id
            · simp only [beq_iff_eq] at hb
              simp [hb]
            · simp [hb]) s.topups]
          exact hndt
        have hpw2 : (resolvedTxs (approve_topup_transaction s i).2 rest).Pairwise
            (fun a b => a.user ≠ b.user) := by
          have : resolvedTxs (approve_topup_transaction s i).2 rest = resolvedTxs s rest :=
            List.filterMap_congr (fun j hj => (hfindj j hj).1)
          rw [this]
          exact htail
        have happ1 : (approve_topup_transaction s i).1 = true := by
          rw [hcore]
        have hcnt : approveManyCount s (i :: rest) =
            1 + approveManyCount (approve_topup_transaction s i).2 rest := by
          simp [approveManyCount, happ1]
        have hmany : approveMany s (i :: rest) =
            approveMany (approve_topup_transaction s i).2 rest := rfl
        show adminApproveLoop s (adminSnapshot s (i :: rest)) = _
        rw [hsnap, adminLoop_cons_pending s tx _ _ ha, hstep, ← hsnap2]
        rw [show adminApproveLoop (approve_topup_transaction s i).2
            (adminSnapshot (approve_topup_transaction s i).2 rest) =
          approve_topups (approve_topup_transaction s i).2 rest from rfl]
        rw [ih (approve_topup_transaction s i).2 hndu2 hndt2 hpw2]
        rw [hcnt, hmany]
        rw [Nat.add_comm]

/-- Counterexample for C5 as stated: on the fixture state, bulk-approving
requests 1 (1000.00 + 10.00) and 3 (500.00 + 5.00 + 100.00 promo), both of
the same account, is NOT the fold of the core approval: the queryset
snapshot makes the second iteration start from the stale balance 0, so the
account ends at 605.00 instead of 1615.00. -/
theorem admin_bulk_lost_update_counterexample :
    (approve_topups sA [1, 3]).2 ≠ approveMany sA [1, 3] ∧
    (findUser (approve_topups sA [1, 3]).2 1).map User.balance = some 60500 ∧
    (findUser (approveMany sA [1, 3]) 1).map User.balance = some 161500 := by
  decide

/-- Witness for C5 (amended): bulk-approving requests 1 and 6, which belong
to two distinct accounts, equals the core-approval fold with count 2. -/
theorem admin_bulk_refines_core_witness :
    approve_topups sB [1, 6] = (approveManyCount sB [1, 6], approveMany sB [1, 6]) :=
  admin_bulk_refines_core [1, 6] sB (by decide) (by decide) (by decide)

end Ideator
